import Mathlib

/-!
Verification of the tableparser repository's wiki-template parsing engine.

The repository contains two implementations of the template parser:
`src/wikiapi/api.py` (a character-scanning implementation) and
`src/wikisearch.py` (a recursive-regex implementation).  Both are embedded
below.  Python strings are modelled as `List Char` / `String`, Python's
`OrderedDict` as an association list with the relevant insertion policy,
generators as functions returning the list of yielded values, and raised
exceptions as `Except`/`Bool` error flags.
-/

namespace TableParser

/-! ## String helpers (Python `str.strip` / `str.rstrip`) -/

/-- Whether `c` is whitespace for the purposes of Python's `str.strip()` /
`str.isspace()`: the Unicode whitespace set (U+0009–U+000D, U+001C–U+001F,
space, U+0085, U+00A0, U+1680, U+2000–U+200A, U+2028, U+2029, U+202F,
U+205F, U+3000). -/
def isSpace (c : Char) : Bool :=
  let n := c.toNat
  (9 ≤ n && n ≤ 13) || n = 32 || (28 ≤ n && n ≤ 31) || n = 0x85 || n = 0xa0 ||
  n = 0x1680 || (0x2000 ≤ n && n ≤ 0x200a) || n = 0x2028 || n = 0x2029 ||
  n = 0x202f || n = 0x205f || n = 0x3000

/-- Python `str.strip()`: drop leading and trailing whitespace. -/
def pyStrip (l : List Char) : List Char :=
  ((l.dropWhile isSpace).reverse.dropWhile isSpace).reverse

/-- Python `str.rstrip()`: drop trailing whitespace. -/
def pyRstrip (l : List Char) : List Char :=
  (l.reverse.dropWhile isSpace).reverse

/-- `str.rstrip()` on a `String`. -/
def rstripStr (s : String) : String := String.mk (pyRstrip s.data)

/-- Python `str.startswith`, over the character lists. -/
def pyStartsWith (s pre : String) : Bool := pre.data.isPrefixOf s.data

/-- The characters with a separator or nesting role in the splitter and in
the synthesized source. -/
def specialChars : List Char := ['{', '}', '[', ']', '|', '=']

/-- A string that takes no part in separator handling: none of its
characters is special, and it is fixed by `strip()`. -/
abbrev cleanStr (s : String) : Prop :=
  (∀ c ∈ s.data, c ∉ specialChars) ∧ pyStrip s.data = s.data

/-- `regex.fullmatch(r'[0-9]+', key)`: nonempty all-digit string. -/
def isNumeric (s : String) : Bool := !s.data.isEmpty && s.data.all (fun c => c.isDigit)

/-- Python `int(...)` on a decimal digit string. -/
def strNat (s : String) : Nat := s.data.foldl (fun a c => a * 10 + (c.toNat - 48)) 0

/-! ## Python `OrderedDict` built from a pair stream (`api.py` policy).

`OrderedDict(gen)` inserts each pair in turn; assigning to an existing key
replaces the value but keeps the key's original position. -/

/-- One `d[k] = v` step of a Python (ordered) dict: replace in place if the key
is present, otherwise append at the end. -/
def odInsert {α : Type} [BEq α] (l : List (α × String)) (k : α) (v : String) :
    List (α × String) :=
  if l.any (fun p => p.1 == k) then l.map (fun p => if p.1 == k then (k, v) else p)
  else l ++ [(k, v)]

/-- `OrderedDict(pairs)` for a list of pairs. -/
def odFromList {α : Type} [BEq α] (l : List (α × String)) : List (α × String) :=
  l.foldl (fun d p => odInsert d p.1 p.2) []

/-! ## `api.py` — `_Template._get_name_and_params._split_params`

The Python generator scans the interior left to right keeping
  * `nest`    — a stack of opening bracket characters (last pushed first here;
                the Python string's last character is this list's head),
  * `key`     — `None` before the first separator, else the current key string
                (`''` right after each pipe), modelled as `Option String`,
  * `start`   — the start of the current slice; the slice `text[start:i]` is
                modelled by the accumulator `acc` of the characters scanned
                since the last separator,
  * `counter` — the positional-parameter counter.
Note the source's nesting test is `char == nest[-1]`, i.e. it pops when the
*same opening* character is seen again. -/

def apiSplitGo : List Char → List Char → Option String → List Char → Nat →
    List (Option String × String)
  | [], _, key, acc, n =>
    let value := String.mk (pyStrip acc)
    match key with
    | none => [(none, value)]
    | some k => if k = "" then [(some (toString n), value)] else [(some k, value)]
  | c :: rest, nest, key, acc, n =>
    if nest ≠ [] then
      apiSplitGo rest (if nest.head? = some c then nest.tail else nest) key (acc ++ [c]) n
    else if c = '=' ∧ (key = none ∨ key = some "") then
      apiSplitGo rest nest (some (String.mk (pyStrip acc))) [] n
    else if c = '|' then
      let value := String.mk (pyStrip acc)
      match key with
      | none => (none, value) :: apiSplitGo rest nest (some "") [] n
      | some k =>
        if k = "" then (some (toString n), value) :: apiSplitGo rest nest (some "") [] (n + 1)
        else (some k, value) :: apiSplitGo rest nest (some "") [] n
    else if c = '{' ∨ c = '[' then
      apiSplitGo rest (c :: nest) key (acc ++ [c]) n
    else
      apiSplitGo rest nest key (acc ++ [c]) n

/-- `_split_params(text)`: the full list of yielded `(key, value)` pairs. -/
def apiSplitParams (text : List Char) : List (Option String × String) :=
  apiSplitGo text [] none [] 1

/-- `api.py` `_Template._get_name_and_params`: strip the outer `{{`/`}}`,
take the first yielded pair's value as the template name, and build an
`OrderedDict` from the remaining pairs. -/
def apiGetNameAndParams (source : String) : String × List (Option String × String) :=
  let contents := ((source.data.drop 2).dropLast).dropLast
  match apiSplitParams contents with
  | [] => ("", [])
  | (_, v) :: rest => (v, odFromList rest)

/-! ## Emission-marked variant of the splitter (for the numbering claim).

`apiSplitMarkedGo` is the same scan as `apiSplitGo` except that it records,
at each yield, whether the pair was the leading name slot (`key` still
`None`), a positional slot (`key == ''`), or a named slot — instead of
consulting the counter.  `numberFrom` then assigns the stringified counter
values exactly as the spec words it: positional slots are numbered from the
starting counter, and only positional slots advance it. -/

inductive RawKey where
  | nameK : RawKey
  | posK : RawKey
  | namedK : String → RawKey
deriving DecidableEq

def apiSplitMarkedGo : List Char → List Char → Option String → List Char →
    List (RawKey × String)
  | [], _, key, acc =>
    let value := String.mk (pyStrip acc)
    match key with
    | none => [(.nameK, value)]
    | some k => if k = "" then [(.posK, value)] else [(.namedK k, value)]
  | c :: rest, nest, key, acc =>
    if nest ≠ [] then
      apiSplitMarkedGo rest (if nest.head? = some c then nest.tail else nest) key (acc ++ [c])
    else if c = '=' ∧ (key = none ∨ key = some "") then
      apiSplitMarkedGo rest nest (some (String.mk (pyStrip acc))) []
    else if c = '|' then
      let value := String.mk (pyStrip acc)
      match key with
      | none => (.nameK, value) :: apiSplitMarkedGo rest nest (some "") []
      | some k =>
        if k = "" then (.posK, value) :: apiSplitMarkedGo rest nest (some "") []
        else (.namedK k, value) :: apiSplitMarkedGo rest nest (some "") []
    else if c = '{' ∨ c = '[' then
      apiSplitMarkedGo rest (c :: nest) key (acc ++ [c])
    else
      apiSplitMarkedGo rest nest key (acc ++ [c])

/-- The marked scan of a whole interior. -/
def apiSplitMarked (text : List Char) : List (RawKey × String) :=
  apiSplitMarkedGo text [] none []

/-- Modelled from the spec's numbering rule: starting at counter `n`,
positional slots receive the stringified counter and advance it; named
slots (and the name slot) leave the counter unchanged. -/
def numberFrom : Nat → List (RawKey × String) → List (Option String × String)
  | _, [] => []
  | n, (.nameK, v) :: r => (none, v) :: numberFrom n r
  | n, (.posK, v) :: r => (some (toString n), v) :: numberFrom (n + 1) r
  | n, (.namedK k, v) :: r => (some k, v) :: numberFrom n r

/-! ## `api.py` — `_Template.source` synthesis from `(name, params)` -/

/-- The parameter segments of the synthesized source: a key that is a digit
string equal to the running positional counter is emitted bare (and the
counter advances), any other key is emitted as `key=value`. -/
def segsList : Nat → List (String × String) → List (List Char)
  | _, [] => []
  | n, (k, v) :: rest =>
    if isNumeric k ∧ strNat k = n then v.data :: segsList (n + 1) rest
    else (k.data ++ '=' :: v.data) :: segsList n rest

/-- `'|'.join(lines)`. -/
def joinBar : List (List Char) → List Char
  | [] => []
  | [s] => s
  | s :: rest => s ++ '|' :: joinBar rest

/-- `_Template.source` when `_source is None`: `'{{' + '|'.join(lines) + '}}'`. -/
def templateSource (name : String) (params : List (String × String)) : String :=
  String.mk ('{' :: '{' :: joinBar (name.data :: segsList 1 params) ++ ['}', '}'])

/-! ## `api.py` — `_Template.finditer`

The generator iterates `enumerate(zip(source, source[1:]))`, i.e. the pairs
of adjacent characters.  On `'{{'` it pushes the position and skips one
pair; on `'}}'` it raises `ValueError` if no template is open, otherwise it
pops, records the closed slice, skips one pair and — when the stack became
empty — sorts all recorded slices and yields a parsed template for each that
passes the filter.  Each `next(char_iter)` used for the skip can raise
`StopIteration`, which the surrounding `try` absorbs, ending the generator
*before* the pending flush.  A yielded template is modelled as its
`(source slice, name, params)` triple; the returned `Bool` is the
`ValueError('Source has syntax error')` flag (yields made before the error
are kept, as a consumer of the generator would have received them). -/

/-- A yielded `_Template`: source slice, name, ordered params. -/
abbrev ApiTemplate : Type := String × String × List (Option String × String)

/-- Ascending lexicographic order on `(start, stop)` slices, as
`list.sort()` uses on Python slices. -/
def spanLe (a b : Nat × Nat) : Bool := a.1 < b.1 || (a.1 = b.1 && a.2 ≤ b.2)

/-- Insert a span into an ascending list. -/
def insertSpan (x : Nat × Nat) : List (Nat × Nat) → List (Nat × Nat)
  | [] => [x]
  | y :: rest => if spanLe x y then x :: y :: rest else y :: insertSpan x rest

/-- `closed_templates.sort()`. -/
def sortSpans : List (Nat × Nat) → List (Nat × Nat)
  | [] => []
  | x :: rest => insertSpan x (sortSpans rest)

/-- The flush loop: for each closed slice in ascending order, parse it and
yield it when its name passes the filter.  This variant omits the
`_Template` constructor's `TEMPLATE_REGEX.fullmatch` re-validation performed
inside the yield (which raises `ValueError('There is no template.')` on a
slice containing a lone brace); it is exact on sources all of whose flushed
slices pass that regex — as do all slices arising in the inputs it is
evaluated on here.  `flushSpansFull` below models the full behavior. -/
def flushSpans (src : List Char) (f : String → Bool) (spans : List (Nat × Nat)) :
    List ApiTemplate :=
  (sortSpans spans).filterMap fun sp =>
    let sl := String.mk ((src.take sp.2).drop sp.1)
    let np := apiGetNameAndParams sl
    if f np.1 then some (sl, np.1, np.2) else none

/-- The scanning loop of `finditer`.  `rest` is the unscanned suffix
`source[i:]`; a pair exists only while `rest` has at least two characters.
After consuming a `'{{'`/`'}}'` pair the code calls `next(char_iter)`, which
raises `StopIteration` when the pair starting one character later does not
exist — that is, when the remaining suffix after the two consumed characters
is empty — ending the generator without flushing. -/
def apiFinditerGo (src : List Char) (f : String → Bool) :
    List Char → Nat → List Nat → List (Nat × Nat) → List ApiTemplate →
    List ApiTemplate × Bool
  | c1 :: c2 :: rest, i, unclosed, closed, out =>
    if c1 = '{' ∧ c2 = '{' then
      match rest with
      | [] => (out, false)
      | _ :: _ => apiFinditerGo src f rest (i + 2) (i :: unclosed) closed out
    else if c1 = '}' ∧ c2 = '}' then
      match unclosed with
      | [] => (out, true)
      | s :: unclosed' =>
        let closed' := closed ++ [(s, i + 2)]
        match rest with
        | [] => (out, false)
        | _ :: _ =>
          if unclosed' = [] then
            apiFinditerGo src f rest (i + 2) [] [] (out ++ flushSpans src f closed')
          else
            apiFinditerGo src f rest (i + 2) unclosed' closed' out
    else
      apiFinditerGo src f (c2 :: rest) (i + 1) unclosed closed out
  | _, _, _, _, out => (out, false)

/-- `_Template.finditer(source, name)` with the filter already resolved:
yielded templates plus the `ValueError` flag. -/
def apiFinditer (source : String) (f : String → Bool) : List ApiTemplate × Bool :=
  apiFinditerGo source.data f source.data 0 [] [] []

/-- Modelled from the spec: scanning the text with the same atomic
two-character delimiter discipline, a close delimiter is encountered while
the nesting depth is zero. -/
def closeAtDepthZero : List Char → Nat → Bool
  | c1 :: c2 :: rest, d =>
    if c1 = '{' ∧ c2 = '{' then closeAtDepthZero rest (d + 1)
    else if c1 = '}' ∧ c2 = '}' then
      match d with
      | 0 => true
      | d' + 1 => closeAtDepthZero rest d'
    else closeAtDepthZero (c2 :: rest) d
  | _, _ => false

/-! ## Full-fidelity `finditer`, including the constructor's re-validation.

The generator's yield calls `cls(source[temp], name=a_name, params=params)`,
and the `_Template` constructor re-runs
`TEMPLATE_REGEX.fullmatch` (`(?<quote>\{\{(?<contents>(?:[^\x7b\x7d]|(?&quote))*)\}\})`)
on the slice, raising `ValueError('There is no template.')` when it fails —
e.g. on a slice whose interior holds a lone brace.  That error is distinct
from the scanner's `ValueError('Source has syntax error')`; both end the
iteration, keeping the templates yielded before them. -/

/-- The two `ValueError`s `finditer` can raise. -/
inductive ScanError where
  | syntaxError : ScanError
  | noTemplate : ScanError
deriving DecidableEq

/-- The interior-and-close part of `TEMPLATE_REGEX.fullmatch`: after the
opening `\x7b\x7b` at group depth `d`, the contents may hold non-brace
characters and complete nested groups; a lone brace fails; the outermost
`\x7d\x7d` must end the string. -/
def tmplScan : List Char → Nat → Bool
  | '{' :: '{' :: rest, d => tmplScan rest (d + 1)
  | '}' :: '}' :: rest, d =>
    (match d with
     | 0 => false
     | 1 => rest.isEmpty
     | e + 2 => tmplScan rest (e + 1))
  | '{' :: _, _ => false
  | '}' :: _, _ => false
  | _ :: rest, d => tmplScan rest d
  | [], _ => false

/-- `TEMPLATE_REGEX.fullmatch(source) is not None`. -/
def tmplFullmatch (l : List Char) : Bool :=
  match l with
  | '{' :: '{' :: rest => tmplScan rest 1
  | _ => false

/-- The flush loop with the constructor call: a slice passing the filter but
failing `fullmatch` raises, keeping the templates yielded before it. -/
def flushSpansFullGo (src : List Char) (f : String → Bool) :
    List (Nat × Nat) → List ApiTemplate × Option ScanError
  | [] => ([], none)
  | sp :: rest =>
    let sl := String.mk ((src.take sp.2).drop sp.1)
    let np := apiGetNameAndParams sl
    if f np.1 then
      if tmplFullmatch sl.data then
        let r := flushSpansFullGo src f rest
        ((sl, np.1, np.2) :: r.1, r.2)
      else ([], some .noTemplate)
    else flushSpansFullGo src f rest

/-- The flush over the sorted closed slices. -/
def flushSpansFull (src : List Char) (f : String → Bool) (spans : List (Nat × Nat)) :
    List ApiTemplate × Option ScanError :=
  flushSpansFullGo src f (sortSpans spans)

/-- The `finditer` scan with both error paths modelled. -/
def apiFinditerFullGo (src : List Char) (f : String → Bool) :
    List Char → Nat → List Nat → List (Nat × Nat) → List ApiTemplate →
    List ApiTemplate × Option ScanError
  | c1 :: c2 :: rest, i, unclosed, closed, out =>
    if c1 = '{' ∧ c2 = '{' then
      match rest with
      | [] => (out, none)
      | _ :: _ => apiFinditerFullGo src f rest (i + 2) (i :: unclosed) closed out
    else if c1 = '}' ∧ c2 = '}' then
      match unclosed with
      | [] => (out, some .syntaxError)
      | s :: unclosed' =>
        let closed' := closed ++ [(s, i + 2)]
        match rest with
        | [] => (out, none)
        | _ :: _ =>
          if unclosed' = [] then
            let fl := flushSpansFull src f closed'
            if fl.2 = none then apiFinditerFullGo src f rest (i + 2) [] [] (out ++ fl.1)
            else (out ++ fl.1, fl.2)
          else
            apiFinditerFullGo src f rest (i + 2) unclosed' closed' out
    else
      apiFinditerFullGo src f (c2 :: rest) (i + 1) unclosed closed out
  | _, _, _, _, out => (out, none)

/-- `_Template.finditer(source, name)` with the filter already resolved:
yielded templates plus the raised `ValueError`, if any. -/
def apiFinditerFull (source : String) (f : String → Bool) :
    List ApiTemplate × Option ScanError :=
  apiFinditerFullGo source.data f source.data 0 [] [] []

/-! ## `api.py` / `wikisearch.py` — `_make_filter`

The duck-typed filter argument is modelled as a closed inductive of the
kinds the code dispatches on, plus `intF` as a representative unsupported
value.  `pyCheckFilter` is the inner `_check` closure; its `intF` branch is
where `_check` would raise `TypeError`, unreachable past the eager guard.
`makeFilter` is `_make_filter` itself: the eager `isinstance` guard accepts
`None`, `bool`, `str`, callables and objects with a `match` attribute — and
nothing else, so tuples and sets fall through to `raise TypeError()`.  In
the source the whole call sits inside the `finditer` generator body, so it
only runs at the first `next()`, not when `finditer(...)` is called. -/

inductive PyFilter where
  | noneF : PyFilter
  | boolF : Bool → PyFilter
  | strF : String → PyFilter
  | tupleF : List String → PyFilter
  | matcherF : (String → Bool) → PyFilter
  | callableF : (String → Bool) → PyFilter
  | intF : Int → PyFilter

/-- The `_check(target)` closure. -/
def pyCheckFilter : PyFilter → String → Bool
  | .noneF, _ => true
  | .boolF b, _ => b
  | .strF s, t => s == t
  | .tupleF l, t => l.contains t
  | .matcherF m, t => m t
  | .callableF f, t => f t
  | .intF _, _ => false

/-- The eager guard of `_make_filter` followed by returning `_check`. -/
def makeFilter (f : PyFilter) : Except Unit (String → Bool) :=
  if (match f with
      | .noneF => true
      | .boolF _ => true
      | .strF _ => true
      | .callableF _ => true
      | .matcherF _ => true
      | _ => false) then
    .ok (pyCheckFilter f)
  else
    .error ()

/-- Running the `finditer` generator: the filter is resolved when the body
first executes, so an invalid filter surfaces here (at iteration). -/
def apiFinditerWith (f : PyFilter) (source : String) :
    Except Unit (List ApiTemplate × Bool) :=
  match makeFilter f with
  | .error e => .error e
  | .ok chk => .ok (apiFinditer source chk)

/-! ## `wikisearch.py` — `_Template.PARAM_REGEX` based splitter

`PARAM_REGEX` matches, per segment, an optional `key =` followed by a value,
where key and value are runs of characters other than `{}[]|=` and of
balanced `{{...}}` / `[[...]]` groups (inside which `|` and `=` are plain
characters), each match ending at end of input or at a top-level `|`.  That
recursive regex is rendered as an explicit scan: split the interior at
top-level pipes tracking a stack of open bracket kinds (two-character
delimiters matched atomically), then split each segment at its first
top-level `=`; the `\s*` framing around the key is the strip applied to it. -/

/-- Split the interior at top-level `|`, copying bracketed groups verbatim. -/
def wsSplitTop : List Char → List Char → List Char → List (List Char)
  | [], acc, _ => [acc]
  | '{' :: '{' :: rest, acc, st => wsSplitTop rest (acc ++ ['{', '{']) ('{' :: st)
  | '[' :: '[' :: rest, acc, st => wsSplitTop rest (acc ++ ['[', '[']) ('[' :: st)
  | '}' :: '}' :: rest, acc, st =>
    wsSplitTop rest (acc ++ ['}', '}']) (if st.head? = some '{' then st.tail else st)
  | ']' :: ']' :: rest, acc, st =>
    wsSplitTop rest (acc ++ [']', ']']) (if st.head? = some '[' then st.tail else st)
  | '|' :: rest, acc, st =>
    if st = [] then acc :: wsSplitTop rest [] [] else wsSplitTop rest (acc ++ ['|']) st
  | c :: rest, acc, st => wsSplitTop rest (acc ++ [c]) st

/-- Find the first top-level `=` of a segment, returning the key text before
it and the value text after it. -/
def wsFindEq : List Char → List Char → List Char → Option (List Char × List Char)
  | [], _, _ => none
  | '{' :: '{' :: rest, acc, st => wsFindEq rest (acc ++ ['{', '{']) ('{' :: st)
  | '[' :: '[' :: rest, acc, st => wsFindEq rest (acc ++ ['[', '[']) ('[' :: st)
  | '}' :: '}' :: rest, acc, st =>
    wsFindEq rest (acc ++ ['}', '}']) (if st.head? = some '{' then st.tail else st)
  | ']' :: ']' :: rest, acc, st =>
    wsFindEq rest (acc ++ [']', ']']) (if st.head? = some '[' then st.tail else st)
  | '=' :: rest, acc, st =>
    if st = [] then some (acc, rest) else wsFindEq rest (acc ++ ['=']) st
  | c :: rest, acc, st => wsFindEq rest (acc ++ [c]) st

/-- One segment as the regex's `(key, value)` groups (key `""` when the
optional key group did not participate). -/
def wsKeyVal (seg : List Char) : String × String :=
  match wsFindEq seg [] [] with
  | some (k, v) => (String.mk (pyStrip k), String.mk v)
  | none => ("", String.mk seg)

/-- `if key in params: del params[key]` then `params[key] = value`:
erase the (unique) entry with that key and append at the end. -/
def wsDelInsert (l : List (String × String)) (k : String) (v : String) :
    List (String × String) :=
  (if l.any (fun p => p.1 == k) then l.eraseP (fun p => p.1 == k) else l) ++ [(k, v)]

/-- The parameter-building loop of `wikisearch.py`'s
`_Template._get_name_and_params`: number empty keys from the counter,
then last-write-wins with reinsertion at the end. -/
def wsBuildParams : Nat → List (String × String) → List (String × String) →
    List (String × String)
  | _, params, [] => params
  | n, params, (k, v) :: rest =>
    if k = "" then
      wsBuildParams (n + 1) (wsDelInsert params (toString n) (String.mk (pyStrip v.data))) rest
    else
      wsBuildParams n (wsDelInsert params k (String.mk (pyStrip v.data))) rest

/-- `wikisearch.py` `_Template._get_name_and_params`. -/
def wsGetNameAndParams (source : String) : String × List (String × String) :=
  let contents := ((source.data.drop 2).dropLast).dropLast
  match (wsSplitTop contents [] []).map wsKeyVal with
  | [] => ("", [])
  | (_, v) :: rest => (String.mk (pyStrip v.data), wsBuildParams 1 [] rest)

/-! ## `wikisearch.py` — infobox chain resolution

`check_template_name(name)` fetches the page `Template:<name>` through the
page-source provider (modelled as `fetch : String → Option String`); a
missing page gives `None`, otherwise `regex.match(r'\{\{([^|{}]*)', source)`
takes the run of non-`|{}` characters right after a leading `{{` (no match
when the source does not start with `{{`), right-stripped.

The `while not name.startswith('Infobox')` loop of `parse_infoboxes2` is
`resolveLoop`: it consults only the method-wide negative cache
(`non_infobox_templates`), accumulates the chain's visited names
(`check_templates`), and follows `check_template_name(name.rstrip())`,
failing on a missing/empty candidate.  The loop has no cycle test, so it is
given fuel; `none` means the fuel ran out (the Python loop does not
terminate).  The result is `(infobox_flag, check_templates, fetch count)`;
`cacheAfter` is the caller's `non_infobox_templates.update(check_templates)`
performed only when the flag is false. -/

/-- `check_template_name`, abstracted over the page-source provider. -/
def firstTmplName (src : String) : Option String :=
  match src.data with
  | '{' :: '{' :: rest =>
    some (rstripStr (String.mk (rest.takeWhile fun c => !(c == '|' || c == '{' || c == '}'))))
  | _ => none

/-- `check_template_name(template_name)` with provider `fetch`. -/
def checkTemplateName (fetch : String → Option String) (name : String) : Option String :=
  match fetch ("Template:" ++ name) with
  | none => none
  | some src => firstTmplName src

/-- The chain-following loop; each `checkTemplateName` call is one provider
fetch, counted in the last component. -/
def resolveLoop (fetch : String → Option String) :
    Nat → String → List String → List String → Nat →
    Option (Bool × List String × Nat)
  | 0, _, _, _, _ => none
  | fuel + 1, name, cache, visited, k =>
    if pyStartsWith name "Infobox" then some (true, visited, k)
    else if cache.contains name then some (false, visited, k)
    else
      let visited' := if visited.contains name then visited else visited ++ [name]
      match checkTemplateName fetch (rstripStr name) with
      | none => some (false, visited', k + 1)
      | some next =>
        if next = "" then some (false, visited', k + 1)
        else resolveLoop fetch fuel next cache visited' (k + 1)

/-- One resolution starting from `name` against the given negative cache. -/
def resolveOne (fetch : String → Option String) (fuel : Nat) (cache : List String)
    (name : String) : Option (Bool × List String × Nat) :=
  resolveLoop fetch fuel name cache [] 0

/-- The caller's cache update: only a failed chain adds its visited set. -/
def cacheAfter (cache : List String) : Option (Bool × List String × Nat) → List String
  | some (false, visited, _) => cache ++ visited.filter (fun n => !(cache.contains n))
  | _ => cache

/-- Provider for the cycle claim: `Template:A`'s page invokes `A` again. -/
def fetchCycle : String → Option String :=
  fun t => if t = "Template:A" then some "{{A}}" else none

/-- Provider where `A` redirects to `B` and `B`'s page starts with an
`Infobox X` invocation. -/
def fetchPos : String → Option String :=
  fun t =>
    if t = "Template:A" then some "{{B}}"
    else if t = "Template:B" then some "{{Infobox X}}"
    else none

/-- Provider where `A` redirects to `B` and `Template:B` is missing. -/
def fetchNeg : String → Option String :=
  fun t => if t = "Template:A" then some "{{B}}" else none

/-! ## `_Template.__eq__`

`return isinstance(self, _Template) and self.source == other.source`:
only the left operand's type (always a `_Template` here) and the right
operand's `source` attribute are consulted.  An arbitrary right operand is
a `PyObj` that may or may not carry a `source` attribute; accessing a
missing attribute raises `AttributeError`, modelled as `.error ()`. -/

structure PyObj where
  sourceAttr : Option String

/-- `t == o` for a template whose `source` is `selfSource`. -/
def pyTemplateEq (selfSource : String) (o : PyObj) : Except Unit Bool :=
  match o.sourceAttr with
  | none => .error ()
  | some s => .ok (true && (selfSource == s))

/-! ## Helper lemmas -/

/-- After erasing the entry with key `k` from a key-nodup association list,
`k` no longer occurs among the keys. -/
theorem eraseKey_not_mem (k : String) :
    ∀ (l : List (String × String)), (l.map Prod.fst).Nodup →
      k ∉ (l.eraseP (fun p => p.1 == k)).map Prod.fst := by
  intro l
  induction l with
  | nil => simp
  | cons a l ih =>
    intro h
    rw [List.map_cons, List.nodup_cons] at h
    by_cases hk : a.1 = k
    · rw [List.eraseP_cons_of_pos (by simp [hk])]
      simpa [hk] using h.1
    · rw [List.eraseP_cons_of_neg (by simp [hk])]
      simp only [List.map_cons, List.mem_cons, not_or]
      exact ⟨fun he => hk he.symm, ih h.2⟩

/-- `wsDelInsert` preserves key uniqueness. -/
theorem wsDelInsert_nodup (l : List (String × String)) (k v : String)
    (h : (l.map Prod.fst).Nodup) : ((wsDelInsert l k v).map Prod.fst).Nodup := by
  unfold wsDelInsert
  by_cases hc : l.any (fun p => p.1 == k) = true
  · rw [if_pos hc, List.map_append]
    refine List.Nodup.append ?_ (by simp) ?_
    · exact (((List.eraseP_sublist l).map Prod.fst).nodup) h
    · intro x hx hx2
      simp only [List.map_cons, List.map_nil, List.mem_singleton] at hx2
      exact eraseKey_not_mem k l h (hx2 ▸ hx)
  · rw [if_neg hc, List.map_append]
    refine List.Nodup.append h (by simp) ?_
    intro x hx hx2
    simp only [List.map_cons, List.map_nil, List.mem_singleton] at hx2
    simp only [List.any_eq_true, beq_iff_eq, not_exists, not_and] at hc
    obtain ⟨p, hp, hpk⟩ := List.mem_map.mp hx
    exact hc p hp (hx2 ▸ hpk)

/-- Rebuilding a string from its character list. -/
theorem string_mk_data (s : String) : String.mk s.data = s := rfl

/-- The counter-threading splitter is the marked splitter followed by the
spec's numbering pass, for every state. -/
theorem splitGo_eq_numberFrom :
    ∀ (text nest : List Char) (key : Option String) (acc : List Char) (n : Nat),
      apiSplitGo text nest key acc n = numberFrom n (apiSplitMarkedGo text nest key acc) := by
  intro text
  induction text with
  | nil =>
    intro nest key acc n
    rcases key with _ | k
    · simp [apiSplitGo, apiSplitMarkedGo, numberFrom]
    · by_cases hk : k = "" <;> simp [apiSplitGo, apiSplitMarkedGo, numberFrom, hk]
  | cons c rest ih =>
    intro nest key acc n
    simp only [apiSplitGo, apiSplitMarkedGo]
    by_cases h1 : nest = []
    · simp only [h1, ne_eq, not_true_eq_false, if_false]
      by_cases h2 : c = '=' ∧ (key = none ∨ key = some "")
      · simp [h2, ih]
      · by_cases h3 : c = '|'
        · rcases key with _ | k
          · simp [h2, h3, numberFrom, ih]
          · by_cases hk : k = "" <;> simp [h2, h3, hk, numberFrom, ih]
        · by_cases h4 : c = '{' ∨ c = '['
          · simp [h2, h3, h4, ih]
          · simp [h2, h3, h4, ih]
    · simp [h1, ih]

/-- A dict assignment step preserves key uniqueness: replacing in place
keeps the key list unchanged, appending adds a fresh key. -/
theorem odInsert_nodup {α : Type} [BEq α] [LawfulBEq α] (l : List (α × String)) (k : α)
    (v : String) (h : (l.map Prod.fst).Nodup) : ((odInsert l k v).map Prod.fst).Nodup := by
  unfold odInsert
  by_cases hc : l.any (fun p => p.1 == k) = true
  · rw [if_pos hc]
    have he : (l.map (fun p => if p.1 == k then (k, v) else p)).map Prod.fst
        = l.map Prod.fst := by
      rw [List.map_map]
      apply List.map_congr_left
      intro p _
      by_cases hp : p.1 == k
      · have hpk : p.1 = k := beq_iff_eq.mp hp
        simp [Function.comp, hp, hpk]
      · simp [Function.comp, hp]
    rw [he]
    exact h
  · rw [if_neg hc, List.map_append]
    refine List.Nodup.append h (by simp) ?_
    intro x hx hx2
    simp only [List.map_cons, List.map_nil, List.mem_singleton] at hx2
    simp only [List.any_eq_true, beq_iff_eq, not_exists, not_and] at hc
    obtain ⟨p, hp, hpk⟩ := List.mem_map.mp hx
    exact hc p hp (hx2 ▸ hpk)

/-- `OrderedDict` built from any pair stream has unique keys (`api.py`). -/
theorem odFromList_nodup {α : Type} [BEq α] [LawfulBEq α] :
    ∀ (l d : List (α × String)), (d.map Prod.fst).Nodup →
      ((List.foldl (fun a p => odInsert a p.1 p.2) d l).map Prod.fst).Nodup := by
  intro l
  induction l with
  | nil => intro d h; exact h
  | cons a l ih =>
    intro d h
    exact ih (odInsert d a.1 a.2) (odInsert_nodup d a.1 a.2 h)

/-- The parameter-building fold of `wikisearch.py` always yields unique keys. -/
theorem wsBuildParams_nodup :
    ∀ (pairs : List (String × String)) (n : Nat) (params : List (String × String)),
      (params.map Prod.fst).Nodup → ((wsBuildParams n params pairs).map Prod.fst).Nodup := by
  intro pairs
  induction pairs with
  | nil => intro n params h; simpa [wsBuildParams] using h
  | cons a rest ih =>
    intro n params h
    rcases a with ⟨k, v⟩
    by_cases hk : k = "" <;> simp only [wsBuildParams, hk, if_true, if_false] <;>
      exact ih _ _ (wsDelInsert_nodup _ _ _ h)

/-- Single scan steps of the splitter, for the round-trip proof. -/
theorem splitGo_eq_step (t acc : List Char) (n : Nat) :
    apiSplitGo ('=' :: t) [] (some "") acc n =
      apiSplitGo t [] (some (String.mk (pyStrip acc))) [] n := rfl

theorem splitGo_pipe_pos (t acc : List Char) (n : Nat) :
    apiSplitGo ('|' :: t) [] (some "") acc n =
      (some (toString n), String.mk (pyStrip acc)) :: apiSplitGo t [] (some "") [] (n + 1) :=
  rfl

theorem splitGo_pipe_name (t acc : List Char) (n : Nat) :
    apiSplitGo ('|' :: t) [] none acc n =
      (none, String.mk (pyStrip acc)) :: apiSplitGo t [] (some "") [] n := rfl

theorem splitGo_pipe_named (k : String) (hkne : k ≠ "") (t acc : List Char) (n : Nat) :
    apiSplitGo ('|' :: t) [] (some k) acc n =
      (some k, String.mk (pyStrip acc)) :: apiSplitGo t [] (some "") [] n := by
  simp only [apiSplitGo]
  simp [hkne]

theorem splitGo_nil_named (k : String) (hkne : k ≠ "") (acc : List Char) (n : Nat) :
    apiSplitGo [] [] (some k) acc n = [(some k, String.mk (pyStrip acc))] := by
  simp only [apiSplitGo]
  simp [hkne]

theorem splitGo_nil_pos (acc : List Char) (n : Nat) :
    apiSplitGo [] [] (some "") acc n = [(some (toString n), String.mk (pyStrip acc))] := rfl

theorem splitGo_nil_name (acc : List Char) (n : Nat) :
    apiSplitGo [] [] none acc n = [(none, String.mk (pyStrip acc))] := rfl

/-- Characters with no separator role are simply accumulated into the current
slice by the splitter. -/
theorem splitGo_clean :
    ∀ (cs : List Char), (∀ c ∈ cs, c ∉ specialChars) →
      ∀ (t : List Char) (key : Option String) (acc : List Char) (n : Nat),
        apiSplitGo (cs ++ t) [] key acc n = apiSplitGo t [] key (acc ++ cs) n := by
  intro cs
  induction cs with
  | nil => intro _ t key acc n; simp
  | cons c cs' ih =>
    intro h t key acc n
    have hc : c ∉ specialChars := h c (by simp)
    have hne : ¬(c = '=' ∧ (key = none ∨ key = some "")) := by
      rintro ⟨he, -⟩; exact hc (by simp [specialChars, he])
    have hnp : ¬(c = '|') := fun he => hc (by simp [specialChars, he])
    have hnb : ¬(c = '{' ∨ c = '[') := by
      rintro (he | he) <;> exact hc (by simp [specialChars, he])
    have e : apiSplitGo (c :: (cs' ++ t)) [] key acc n =
        apiSplitGo (cs' ++ t) [] key (acc ++ [c]) n := by
      simp only [apiSplitGo]
      rw [if_neg (show ¬(([] : List Char) ≠ []) by simp), if_neg hne, if_neg hnp, if_neg hnb]
    rw [List.cons_append, e, ih (fun x hx => h x (by simp [hx])) t key (acc ++ [c]) n,
      List.append_assoc]
    rfl

/-- `'|'.join` one step. -/
theorem joinBar_cons (s : List Char) (l : List (List Char)) (h : l ≠ []) :
    joinBar (s :: l) = s ++ '|' :: joinBar l := by
  rcases l with _ | ⟨a, l'⟩
  · exact absurd rfl h
  · rfl

/-- Synthesized segments of a nonempty parameter list are nonempty. -/
theorem segsList_ne_nil (n : Nat) (l : List (String × String)) (h : l ≠ []) :
    segsList n l ≠ [] := by
  rcases l with _ | ⟨⟨k, v⟩, l'⟩
  · exact absurd rfl h
  · simp only [segsList]
    split <;> simp

/-- Inserting an absent key appends it. -/
theorem odInsert_not_mem {α : Type} [BEq α] [LawfulBEq α] (d : List (α × String)) (k : α)
    (v : String) (hk : k ∉ d.map Prod.fst) : odInsert d k v = d ++ [(k, v)] := by
  unfold odInsert
  rw [if_neg]
  simp only [List.any_eq_true, beq_iff_eq, not_exists, not_and]
  intro p hp hpk
  exact hk (List.mem_map.mpr ⟨p, hp, hpk⟩)

/-- Folding dict insertion over pairs with fresh keys appends them all. -/
theorem odFoldl_append {α : Type} [BEq α] [LawfulBEq α] :
    ∀ (l d : List (α × String)), ((d ++ l).map Prod.fst).Nodup →
      l.foldl (fun a p => odInsert a p.1 p.2) d = d ++ l := by
  intro l
  induction l with
  | nil => intro d _; simp
  | cons a l ih =>
    intro d h
    rcases a with ⟨k, v⟩
    have hk : k ∉ d.map Prod.fst := by
      rw [List.map_append] at h
      have hdisj := List.disjoint_of_nodup_append h
      intro hmem
      exact hdisj hmem (by simp)
    have h2 : (((d ++ [(k, v)]) ++ l).map Prod.fst).Nodup := by
      rw [List.append_assoc]; exact h
    calc ((k, v) :: l).foldl (fun a p => odInsert a p.1 p.2) d
        = l.foldl (fun a p => odInsert a p.1 p.2) (odInsert d k v) := rfl
      _ = l.foldl (fun a p => odInsert a p.1 p.2) (d ++ [(k, v)]) := by
            rw [odInsert_not_mem d k v hk]
      _ = (d ++ [(k, v)]) ++ l := ih (d ++ [(k, v)]) h2
      _ = d ++ ((k, v) :: l) := by simp

/-- `OrderedDict` of a key-nodup pair list is that list. -/
theorem odFromList_eq_self {α : Type} [BEq α] [LawfulBEq α] (l : List (α × String))
    (h : (l.map Prod.fst).Nodup) : odFromList l = l := by
  unfold odFromList
  simpa using odFoldl_append l [] (by simpa using h)

/-- Re-parsing the synthesized parameter segments recovers the parameter list
(after the name's pipe, the scan state is `key = some ""`, counter `n`). -/
theorem splitGo_segs :
    ∀ (params : List (String × String)) (n : Nat), params ≠ [] →
      (∀ p ∈ params, cleanStr p.1 ∧ cleanStr p.2 ∧ p.1 ≠ "" ∧
        (isNumeric p.1 = true → toString (strNat p.1) = p.1)) →
      apiSplitGo (joinBar (segsList n params)) [] (some "") [] n =
        params.map (fun p => (some p.1, p.2)) := by
  intro params
  induction params with
  | nil => intro n h _; exact absurd rfl h
  | cons p ps ih =>
    intro n _ hclean
    rcases p with ⟨k, v⟩
    obtain ⟨hk, hv, hkne, hknum⟩ := hclean (k, v) (by simp)
    have hcps : ∀ q ∈ ps, cleanStr q.1 ∧ cleanStr q.2 ∧ q.1 ≠ "" ∧
        (isNumeric q.1 = true → toString (strNat q.1) = q.1) :=
      fun q hq => hclean q (by simp [hq])
    simp only [segsList]
    by_cases hb : isNumeric k = true ∧ strNat k = n
    · rw [if_pos hb]
      have hkn : toString n = k := by rw [← hb.2]; exact hknum hb.1
      rcases ps with _ | ⟨q, ps'⟩
      · simp only [segsList]
        rw [show joinBar [v.data] = v.data from rfl]
        have h1 := splitGo_clean v.data hv.1 [] (some "") [] n
        rw [List.append_nil] at h1
        rw [h1, List.nil_append, splitGo_nil_pos, hv.2, string_mk_data, hkn, List.map_cons,
          List.map_nil]
      · have hnn : segsList (n + 1) (q :: ps') ≠ [] := segsList_ne_nil (n + 1) _ (by simp)
        rw [joinBar_cons _ _ hnn,
          splitGo_clean v.data hv.1 ('|' :: joinBar (segsList (n + 1) (q :: ps')))
            (some "") [] n,
          List.nil_append, splitGo_pipe_pos, hv.2, string_mk_data, hkn, List.map_cons,
          ih (n + 1) (by simp) hcps]
    · rw [if_neg hb]
      rcases ps with _ | ⟨q, ps'⟩
      · simp only [segsList]
        rw [show joinBar [k.data ++ '=' :: v.data] = k.data ++ '=' :: v.data from rfl,
          splitGo_clean k.data hk.1 ('=' :: v.data) (some "") [] n, List.nil_append,
          splitGo_eq_step, hk.2, string_mk_data]
        have h1 := splitGo_clean v.data hv.1 [] (some k) [] n
        rw [List.append_nil] at h1
        rw [h1, List.nil_append, splitGo_nil_named k hkne, hv.2, string_mk_data,
          List.map_cons, List.map_nil]
      · have hnn : segsList n (q :: ps') ≠ [] := segsList_ne_nil n _ (by simp)
        rw [joinBar_cons _ _ hnn, List.append_assoc, List.cons_append,
          splitGo_clean k.data hk.1 ('=' :: (v.data ++ '|' :: joinBar (segsList n (q :: ps'))))
            (some "") [] n,
          List.nil_append, splitGo_eq_step, hk.2, string_mk_data,
          splitGo_clean v.data hv.1 ('|' :: joinBar (segsList n (q :: ps'))) (some k) [] n,
          List.nil_append, splitGo_pipe_named k hkne, hv.2, string_mk_data, List.map_cons,
          ih n (by simp) hcps]

/-- The flush's error, when present, is always the constructor's
`ValueError('There is no template.')`. -/
theorem flushFull_err (src : List Char) (f : String → Bool) :
    ∀ (spans : List (Nat × Nat)),
      (flushSpansFullGo src f spans).2 = none ∨
      (flushSpansFullGo src f spans).2 = some ScanError.noTemplate := by
  intro spans
  induction spans with
  | nil => exact Or.inl rfl
  | cons sp rest ih =>
    by_cases h1 : f (apiGetNameAndParams (String.mk ((src.take sp.2).drop sp.1))).1 = true
    · by_cases h2 : tmplFullmatch (String.mk ((src.take sp.2).drop sp.1)).data = true
      · have hstep : (flushSpansFullGo src f (sp :: rest)).2 =
            (flushSpansFullGo src f rest).2 := by
          simp only [flushSpansFullGo]
          rw [if_pos h1, if_pos h2]
        rw [hstep]
        exact ih
      · have hstep : (flushSpansFullGo src f (sp :: rest)).2 = some ScanError.noTemplate := by
          simp only [flushSpansFullGo]
          rw [if_pos h1, if_neg h2]
        exact Or.inr hstep
    · have hstep : (flushSpansFullGo src f (sp :: rest)).2 =
          (flushSpansFullGo src f rest).2 := by
        simp only [flushSpansFullGo]
        rw [if_neg h1]
      rw [hstep]
      exact ih

/-- `flushFull_err` through the sort. -/
theorem flushSpansFull_err (src : List Char) (f : String → Bool)
    (spans : List (Nat × Nat)) :
    (flushSpansFull src f spans).2 = none ∨
    (flushSpansFull src f spans).2 = some ScanError.noTemplate :=
  flushFull_err src f (sortSpans spans)

/-- Either the constructor's error preempts the scan, or the scan raises the
malformed-source error exactly when a `\x7d\x7d` close delimiter occurs at
nesting depth zero (length-bounded induction; the depth is the size of the
stack of open templates). -/
theorem finditerFull_err :
    ∀ (m : Nat) (rest : List Char), rest.length ≤ m →
      ∀ (src : List Char) (f : String → Bool) (i : Nat) (unclosed : List Nat)
        (closed : List (Nat × Nat)) (out : List ApiTemplate),
        (apiFinditerFullGo src f rest i unclosed closed out).2 = some ScanError.noTemplate ∨
        ((apiFinditerFullGo src f rest i unclosed closed out).2 = some ScanError.syntaxError ↔
          closeAtDepthZero rest unclosed.length = true) := by
  intro m
  induction m with
  | zero =>
    intro rest hrest src f i unclosed closed out
    have h0 : rest = [] := List.length_eq_zero.mp (Nat.le_zero.mp hrest)
    subst h0
    exact Or.inr (by simp [apiFinditerFullGo, closeAtDepthZero])
  | succ m ih =>
    intro rest hrest src f i unclosed closed out
    rcases rest with _ | ⟨c1, _ | ⟨c2, rest'⟩⟩
    · exact Or.inr (by simp [apiFinditerFullGo, closeAtDepthZero])
    · exact Or.inr (by simp [apiFinditerFullGo, closeAtDepthZero])
    · have hlen : rest'.length + 2 ≤ m + 1 := by simpa using hrest
      have hlen1 : (c2 :: rest').length ≤ m := by simp; omega
      by_cases h1 : c1 = '{' ∧ c2 = '{'
      · obtain ⟨e1, e2⟩ := h1
        subst e1; subst e2
        rcases rest' with _ | ⟨d, rest''⟩
        · have hstep : apiFinditerFullGo src f ['{', '{'] i unclosed closed out =
              (out, none) := rfl
          have hspec : closeAtDepthZero ['{', '{'] unclosed.length = false := rfl
          rw [hstep, hspec]
          exact Or.inr (by simp)
        · have hlen2 : (d :: rest'').length ≤ m := by simp at hlen ⊢; omega
          have hstep : apiFinditerFullGo src f ('{' :: '{' :: d :: rest'') i unclosed
              closed out =
              apiFinditerFullGo src f (d :: rest'') (i + 2) (i :: unclosed) closed out := rfl
          have hspec : closeAtDepthZero ('{' :: '{' :: d :: rest'') unclosed.length =
              closeAtDepthZero (d :: rest'') (unclosed.length + 1) := rfl
          rw [hstep, hspec]
          exact ih (d :: rest'') hlen2 src f (i + 2) (i :: unclosed) closed out
      · by_cases h2 : c1 = '}' ∧ c2 = '}'
        · obtain ⟨e1, e2⟩ := h2
          subst e1; subst e2
          rcases unclosed with _ | ⟨s, unclosed'⟩
          · have hstep : apiFinditerFullGo src f ('}' :: '}' :: rest') i [] closed out =
                (out, some ScanError.syntaxError) := rfl
            have hspec : closeAtDepthZero ('}' :: '}' :: rest') ([] : List Nat).length =
                true := rfl
            rw [hstep, hspec]
            exact Or.inr (by simp)
          · rcases rest' with _ | ⟨d, rest''⟩
            · have hstep : apiFinditerFullGo src f ['}', '}'] i (s :: unclosed')
                  closed out = (out, none) := rfl
              have hspec : closeAtDepthZero ['}', '}'] (s :: unclosed').length = false := rfl
              rw [hstep, hspec]
              exact Or.inr (by simp)
            · have hlen2 : (d :: rest'').length ≤ m := by simp at hlen ⊢; omega
              have hstep : apiFinditerFullGo src f ('}' :: '}' :: d :: rest'') i
                  (s :: unclosed') closed out =
                  if unclosed' = [] then
                    (if (flushSpansFull src f (closed ++ [(s, i + 2)])).2 = none then
                      apiFinditerFullGo src f (d :: rest'') (i + 2) [] []
                        (out ++ (flushSpansFull src f (closed ++ [(s, i + 2)])).1)
                    else
                      (out ++ (flushSpansFull src f (closed ++ [(s, i + 2)])).1,
                        (flushSpansFull src f (closed ++ [(s, i + 2)])).2))
                  else
                    apiFinditerFullGo src f (d :: rest'') (i + 2) unclosed'
                      (closed ++ [(s, i + 2)]) out := rfl
              have hspec : closeAtDepthZero ('}' :: '}' :: d :: rest'')
                  (s :: unclosed').length =
                  closeAtDepthZero (d :: rest'') unclosed'.length := rfl
              rw [hstep, hspec]
              by_cases h3 : unclosed' = []
              · rw [if_pos h3]
                subst h3
                rcases flushSpansFull_err src f (closed ++ [(s, i + 2)]) with hfl | hfl
                · rw [if_pos hfl]
                  exact ih (d :: rest'') hlen2 src f (i + 2) [] []
                    (out ++ (flushSpansFull src f (closed ++ [(s, i + 2)])).1)
                · rw [if_neg (by simp [hfl])]
                  exact Or.inl hfl
              · rw [if_neg h3]
                exact ih (d :: rest'') hlen2 src f (i + 2) unclosed'
                  (closed ++ [(s, i + 2)]) out
        · have hstep : apiFinditerFullGo src f (c1 :: c2 :: rest') i unclosed closed out =
              apiFinditerFullGo src f (c2 :: rest') (i + 1) unclosed closed out := by
            simp only [apiFinditerFullGo]
            rw [if_neg h1, if_neg h2]
          have hspec : closeAtDepthZero (c1 :: c2 :: rest') unclosed.length =
              closeAtDepthZero (c2 :: rest') unclosed.length := by
            simp only [closeAtDepthZero]
            rw [if_neg h1, if_neg h2]
          rw [hstep, hspec]
          exact ih (c2 :: rest') hlen1 src f (i + 1) unclosed closed out

end TableParser

namespace TableParser

/-! ## Claim theorems -/

/-- Claim C1: the spec says pipes and equals inside a nested `{{...}}` or
`[[...]]` are never treated as separators, and that
`{{t|a=[[Foo|Bar]]|b={{x|1}}}}` parses to exactly `a = "[[Foo|Bar]]"` and
`b = "{{x|1}}"`.  The `api.py` splitter violates this: its nesting stack is
popped when the *same opening* bracket character repeats (`char == nest[-1]`),
so `[[`/`{{` immediately cancel and interior pipes split, producing four
parameters.  The `wikisearch.py` regex splitter produces exactly the claimed
two parameters, confirming the intent. -/
theorem c1_nested_separator_bug :
    apiGetNameAndParams "{{t|a=[[Foo|Bar]]|b={{x|1}}}}" =
      ("t", [(some "a", "[[Foo"), (some "1", "Bar]]"), (some "b", "\x7b\x7bx"),
        (some "2", "1\x7d\x7d")]) ∧
    wsGetNameAndParams "{{t|a=[[Foo|Bar]]|b={{x|1}}}}" =
      ("t", [("a", "[[Foo|Bar]]"), ("b", "{{x|1}}")]) := by
  constructor <;> decide

/-- Claim C2: the spec says the Finder with no filter yields exactly the `N`
top-level balanced spans, in order, and never surfaces nested spans
independently.  The `api.py` finder violates both parts: `"{{a}}"` (one
top-level span, closing at end of input) yields nothing, because the
`next(char_iter)` skip after the final `}}` raises `StopIteration` before
the flush loop runs; and `"{{a{{b}}}} "` (one top-level span followed by a
trailing character) yields two templates, the outer span and the nested
`{{b}}`. -/
theorem c2_finder_drops_and_nested :
    apiFinditer "{{a}}" (fun _ => true) = ([], false) ∧
    apiFinditer "{{a{{b}}}} " (fun _ => true) =
      ([("{{a{{b}}}}", "a{{b}}", []), ("{{b}}", "b", [])], false) := by
  constructor <;> decide

/-- Claim C3 counterexample: parsing `{{t|x=1|y=2|x=3}}` with the `api.py`
splitter does *not* yield the order `y=2, x=3`; `OrderedDict(gen)` replaces
the value of a repeated key in place, so the order is `x=3, y=2`. -/
theorem c3_counterexample :
    apiGetNameAndParams "{{t|x=1|y=2|x=3}}" = ("t", [(some "x", "3"), (some "y", "2")]) ∧
    apiGetNameAndParams "{{t|x=1|y=2|x=3}}" ≠ ("t", [(some "y", "2"), (some "x", "3")]) := by
  constructor <;> decide

/-- Claim C3 (amended): keys are unique within one parsed Template Value in
both implementations — universally: the `wikisearch.py` parameter fold and
the `api.py` `OrderedDict` both produce nodup key sequences from any pair
stream.  The move-to-the-end-on-duplicate policy holds for the
`wikisearch.py` implementation (`{{t|x=1|y=2|x=3}}` yields `y=2, x=3`
there); the `api.py` implementation keeps last-write-wins but leaves the
repeated key at its original position (`x=3, y=2`). -/
theorem c3_dup_key_amended :
    wsGetNameAndParams "{{t|x=1|y=2|x=3}}" = ("t", [("y", "2"), ("x", "3")]) ∧
    (∀ (pairs : List (String × String)) (n : Nat),
      ((wsBuildParams n [] pairs).map Prod.fst).Nodup) ∧
    (∀ (pairs : List (Option String × String)),
      ((odFromList pairs).map Prod.fst).Nodup) ∧
    apiGetNameAndParams "{{t|x=1|y=2|x=3}}" = ("t", [(some "x", "3"), (some "y", "2")]) := by
  refine ⟨by decide, ?_, ?_, by decide⟩
  · intro pairs n
    exact wsBuildParams_nodup pairs n [] (by simp)
  · intro pairs
    exact odFromList_nodup pairs [] (by simp)

/-- Claim C4: the spec says a set/tuple filter is accepted with membership
semantics and an unsupported filter raises eagerly at construction.  The
code's eager `isinstance` guard omits iterables, so a tuple filter raises
`TypeError` even though the `_check` closure has a working membership branch
(and `_make_filter` even converts non-string iterables to tuples); moreover
the guard runs inside the generator body, so the error surfaces at the first
iteration step, not when `finditer` is called. -/
theorem c4_filter_guard_bug :
    makeFilter (PyFilter.tupleF ["Infobox A", "Infobox B"]) = .error () ∧
    makeFilter (PyFilter.intF 3) = .error () ∧
    ((makeFilter (PyFilter.strF "t")).toOption).isSome = true ∧
    ((makeFilter PyFilter.noneF).toOption).isSome = true ∧
    ((makeFilter (PyFilter.boolF false)).toOption).isSome = true ∧
    ((makeFilter (PyFilter.matcherF (fun s => pyStartsWith s "In"))).toOption).isSome = true ∧
    pyCheckFilter (PyFilter.tupleF ["a", "b"]) "b" = true ∧
    pyCheckFilter (PyFilter.tupleF ["a", "b"]) "c" = false ∧
    apiFinditerWith (PyFilter.tupleF ["t"]) "{{t}} " = .error () := by
  exact ⟨rfl, rfl, rfl, rfl, rfl, rfl, by decide, by decide, rfl⟩

/-- Claim C5 counterexample: on `\x7b\x7ba\x7bb\x7d\x7d \x7d\x7dx` a close
delimiter is encountered at depth zero, but the program never raises the
malformed-source error: the earlier flush yields the slice
`\x7b\x7ba\x7bb\x7d\x7d`, whose lone inner brace fails the constructor's
`TEMPLATE_REGEX.fullmatch`, raising `ValueError('There is no template.')`
first and ending the iteration. -/
theorem c5_counterexample :
    closeAtDepthZero ("\x7b\x7ba\x7bb\x7d\x7d \x7d\x7dx").data 0 = true ∧
    apiFinditerFull "\x7b\x7ba\x7bb\x7d\x7d \x7d\x7dx" (fun _ => true) =
      ([], some ScanError.noTemplate) ∧
    (apiFinditerFull "\x7b\x7ba\x7bb\x7d\x7d \x7d\x7dx" (fun _ => true)).2 ≠
      some ScanError.syntaxError := by
  exact ⟨by decide, by decide, by decide⟩

/-- Claim C5 (amended): unless the flush of completed templates first hits a
slice that passes the name filter but fails the template constructor's
re-validation — in which case the constructor's distinct
`ValueError('There is no template.')` is raised instead — the scanner raises
the malformed-source error exactly when a close delimiter is encountered
while the nesting depth is zero. The cited examples behave as claimed:
`\x7b\x7bt|a\x7d\x7d\x7d\x7d` raises malformed-source after yielding its one
balanced template, and the never-closed `\x7b\x7bt|a` yields an empty result
with no error. -/
theorem c5_syntax_error_amended :
    (∀ (source : String) (f : String → Bool),
      (apiFinditerFull source f).2 = some ScanError.noTemplate ∨
      ((apiFinditerFull source f).2 = some ScanError.syntaxError ↔
        closeAtDepthZero source.data 0 = true)) ∧
    apiFinditerFull "\x7b\x7bt|a\x7d\x7d\x7d\x7d" (fun _ => true) =
      ([("{{t|a}}", "t", [(some "1", "a")])], some ScanError.syntaxError) ∧
    apiFinditerFull "\x7b\x7bt|a" (fun _ => true) = ([], none) := by
  refine ⟨fun source f => ?_, by decide, by decide⟩
  exact finditerFull_err source.data.length source.data (Nat.le_refl _) source.data f
    0 [] [] []

/-- Claim C6 counterexample: a Template Value built from `(name, params)`
whose value contains a pipe does not round-trip — `("t", [("1", "a|b")])`
synthesizes `{{t|a|b}}`, which re-parses to the two parameters `1=a, 2=b`. -/
theorem c6_counterexample :
    apiGetNameAndParams (templateSource "t" [("1", "a|b")]) ≠ ("t", [(some "1", "a|b")]) ∧
    apiGetNameAndParams (templateSource "t" [("1", "a|b")]) =
      ("t", [(some "1", "a"), (some "2", "b")]) := by
  constructor <;> decide

/-- Claim C6 (amended): the round-trip holds for every Template Value built
from `(name, params)` whose name, keys and values contain none of the
separator/bracket characters `{}[]|=` and are fixed by `strip()`, whose keys
are nonempty and distinct, and whose digit-string keys carry no leading
zeros: re-parsing the synthesized canonical text recovers the same name and
the same ordered parameter sequence.  (The counterexample shows the
restriction is necessary: separator characters inside a value break it.) -/
theorem c6_roundtrip_amended (name : String) (params : List (String × String))
    (hname : cleanStr name)
    (hps : ∀ p ∈ params, cleanStr p.1 ∧ cleanStr p.2 ∧ p.1 ≠ "" ∧
      (isNumeric p.1 = true → toString (strNat p.1) = p.1))
    (hnd : (params.map Prod.fst).Nodup) :
    apiGetNameAndParams (templateSource name params) =
      (name, params.map (fun p => (some p.1, p.2))) := by
  have hcontents :
      (((templateSource name params).data.drop 2).dropLast).dropLast =
        joinBar (name.data :: segsList 1 params) := by
    show ((joinBar (name.data :: segsList 1 params) ++ ['}', '}']).dropLast).dropLast =
      joinBar (name.data :: segsList 1 params)
    rw [show joinBar (name.data :: segsList 1 params) ++ ['}', '}'] =
        (joinBar (name.data :: segsList 1 params) ++ ['}']) ++ ['}'] by simp,
      List.dropLast_concat, List.dropLast_concat]
  simp only [apiGetNameAndParams]
  rw [hcontents]
  rcases params with _ | ⟨p, ps⟩
  · rw [show segsList 1 ([] : List (String × String)) = [] from rfl,
      show joinBar [name.data] = name.data from rfl]
    have h1 := splitGo_clean name.data hname.1 [] none [] 1
    rw [List.append_nil] at h1
    rw [show apiSplitParams name.data = apiSplitGo name.data [] none [] 1 from rfl, h1,
      List.nil_append, splitGo_nil_name, hname.2, string_mk_data]
    rfl
  · have hsne : segsList 1 (p :: ps) ≠ [] := segsList_ne_nil 1 _ (by simp)
    rw [joinBar_cons _ _ hsne,
      show apiSplitParams (name.data ++ '|' :: joinBar (segsList 1 (p :: ps))) =
        apiSplitGo (name.data ++ '|' :: joinBar (segsList 1 (p :: ps))) [] none [] 1 from rfl,
      splitGo_clean name.data hname.1 _ none [] 1, List.nil_append, splitGo_pipe_name,
      hname.2, string_mk_data, splitGo_segs (p :: ps) 1 (by simp) hps]
    have hnd2 : ((List.map (fun p => ((some p.1 : Option String), p.2)) (p :: ps)).map
        Prod.fst).Nodup := by
      rw [show (List.map (fun p => ((some p.1 : Option String), p.2)) (p :: ps)).map Prod.fst
          = ((p :: ps).map Prod.fst).map Option.some by rw [List.map_map, List.map_map]; rfl]
      exact List.Nodup.map (Option.some_injective _) hnd
    exact congrArg (Prod.mk name) (odFromList_eq_self _ hnd2)

/-- Witness for C6 (amended) at a concrete clean template: positional keys
`1` and `2` straddling the named key `x` round-trip through `{{t|a|x=b|c}}`. -/
theorem c6_roundtrip_witness :
    apiGetNameAndParams (templateSource "t" [("1", "a"), ("x", "b"), ("2", "c")]) =
      ("t", [(some "1", "a"), (some "x", "b"), (some "2", "c")]) :=
  c6_roundtrip_amended "t" [("1", "a"), ("x", "b"), ("2", "c")] (by decide) (by decide)
    (by decide)

/-- Claim C7: the spec says a candidate name reappearing in the current
chain's visited set stops resolution with failure.  The code never consults
the visited set (`check_templates`) — only the negative cache, which is
updated *after* a chain fails — so with a provider where `Template:A`'s page
invokes `A` again, the resolution loop re-fetches `Template:A` forever: it
exhausts any amount of fuel. -/
theorem c7_cycle_nonterminating :
    ∀ (fuel : Nat) (visited : List String) (k : Nat),
      resolveLoop fetchCycle fuel "A" [] visited k = none := by
  intro fuel
  induction fuel with
  | zero => intro visited k; rfl
  | succ n ih =>
    intro visited k
    have h1 : checkTemplateName fetchCycle (rstripStr "A") = some "A" := by decide
    have h2 : pyStartsWith "A" "Infobox" = false := by decide
    have h3 : (([] : List String).contains "A") = false := rfl
    simp only [resolveLoop, h1, h2, h3, Bool.false_eq_true, if_false]
    rw [if_neg (by decide : ¬("A" = ""))]
    exact ih _ _

/-- Claim C8 counterexample: with a provider where `Template:A` redirects to
`Template:B` and `Template:B`'s page starts with `Infobox X`, resolving `A`
succeeds after two fetches — but a *successful* chain adds nothing to the
cache (`non_infobox_templates` is only updated when the flag is false), so a
second resolution of `A` performs two further fetches, not zero. -/
theorem c8_counterexample :
    resolveOne fetchPos 10 [] "A" = some (true, ["A", "B"], 2) ∧
    cacheAfter [] (resolveOne fetchPos 10 [] "A") = [] ∧
    resolveOne fetchPos 10 (cacheAfter [] (resolveOne fetchPos 10 [] "A")) "A" =
      some (true, ["A", "B"], 2) ∧
    resolveOne fetchPos 10 (cacheAfter [] (resolveOne fetchPos 10 [] "A")) "A" ≠
      some (true, ["A", "B"], 0) := by
  exact ⟨by decide, by decide, by decide, by decide⟩

/-- Claim C8 (amended): resolving `A` succeeds (two fetches), and the
memoization is negative-only: after a *failed* chain (here `Template:B`
missing) every name visited in the chain enters the negative cache, and a
second resolution starting from `A` or from `B` performs zero additional
provider fetches. -/
theorem c8_negative_cache_amended :
    resolveOne fetchPos 10 [] "A" = some (true, ["A", "B"], 2) ∧
    resolveOne fetchNeg 10 [] "A" = some (false, ["A", "B"], 2) ∧
    cacheAfter [] (resolveOne fetchNeg 10 [] "A") = ["A", "B"] ∧
    resolveOne fetchNeg 10 ["A", "B"] "A" = some (false, [], 0) ∧
    resolveOne fetchNeg 10 ["A", "B"] "B" = some (false, [], 0) := by
  exact ⟨by decide, by decide, by decide, by decide, by decide⟩

/-- Claim C9: positional parameters are numbered by stringified integers
from 1, the counter advances only over positional slots, and an explicit
empty key (`=value`) is treated as the next positional slot.  The scan is
exactly the marked scan followed by `numberFrom`, whose definition is the
spec's numbering rule; the concrete instance shows `=v` receiving key `1`,
a named parameter leaving the counter alone, and the next bare value
receiving key `2`. -/
theorem c9_positional_numbering :
    (∀ (text : List Char), apiSplitParams text = numberFrom 1 (apiSplitMarked text)) ∧
    apiGetNameAndParams "{{t|=v|a=b|w}}" =
      ("t", [(some "1", "v"), (some "a", "b"), (some "2", "w")]) := by
  refine ⟨fun text => splitGo_eq_numberFrom text [] none [] 1, by decide⟩

/-- Claim C10: template equality inspects only the left operand's type and
the right operand's `source` attribute: comparing with an object lacking the
attribute raises (`AttributeError`), and comparing with any object whose
`source` equals the template's source returns `True`, template or not. -/
theorem c10_eq_source_only :
    ∀ (t : String) (o : PyObj),
      (o.sourceAttr = none → pyTemplateEq t o = .error ()) ∧
      (o.sourceAttr = some t → pyTemplateEq t o = .ok true) := by
  intro t o
  constructor
  · intro h; simp [pyTemplateEq, h]
  · intro h; simp [pyTemplateEq, h]

/-- Witness for C10 at a concrete template source and concrete objects. -/
theorem c10_eq_source_only_witness :
    pyTemplateEq "{{t}}" ⟨none⟩ = .error () ∧
    pyTemplateEq "{{t}}" ⟨some "{{t}}"⟩ = .ok true :=
  ⟨(c10_eq_source_only "{{t}}" ⟨none⟩).1 rfl,
   (c10_eq_source_only "{{t}}" ⟨some "{{t}}"⟩).2 rfl⟩

end TableParser
